import Mathlib

/-!
Verification of the DHL tracking client library (`src/lib.rs`) against its
natural-language specification.  The Rust code is shallowly embedded: each
Rust function becomes an executable Lean definition over `String` / `List Char`,
`Result<T, E>` becomes `Except`, and the fixed validator regex is translated
alternative by alternative into decidable predicates.
-/

namespace DHL

/-- Rust `str::trim`: drop leading and trailing whitespace from the character
list.  (Lean's `Char.isWhitespace` covers the ASCII whitespace characters;
the exotic Unicode whitespace code points of Rust's `char::is_whitespace` do
not occur in any statement below.) -/
def trimChars (l : List Char) : List Char :=
  ((l.dropWhile Char.isWhitespace).reverse.dropWhile Char.isWhitespace).reverse

/-- Rust `str::trim` on a `String`. -/
def strTrim (s : String) : String := ⟨trimChars s.data⟩

/-! ## Character classes of the validator regex (`src/lib.rs` line 218) -/

/-- Class `\d` applied to a whole segment: every character is an ASCII digit. -/
def allDigits (l : List Char) : Bool := l.all Char.isDigit

/-- Class `[a-zA-Z]` applied to a whole segment. -/
def allAlpha (l : List Char) : Bool := l.all Char.isAlpha

/-- Class `[a-zA-Z0-9]` applied to a whole segment. -/
def allAlnum (l : List Char) : Bool := l.all Char.isAlphanum

/-- Piece `\d+`: one or more digits. -/
def digits1 (l : List Char) : Bool := !l.isEmpty && allDigits l

/-- Piece `[a-zA-Z0-9]+`: one or more alphanumeric characters. -/
def alnum1 (l : List Char) : Bool := !l.isEmpty && allAlnum l

/-- A literal piece followed by a piece matching the remainder of the string. -/
def litThen (p : String) (body : List Char → Bool) (l : List Char) : Bool :=
  p.data.isPrefixOf l && body (l.drop p.data.length)

/-- The character at index `i` is the literal hyphen of the pattern. -/
def hyphenAt (l : List Char) (i : Nat) : Bool := l[i]? == some '-'

/-! ## The twelve alternatives of the tracking-number regex

The regex in `TrackingNumber::try_from` is a top-level OR of twelve
alternatives.  Alternatives 1–11 are anchored `^...$` on both sides, so under
`Regex::is_match` they hold exactly of the whole string.  Alternative 12,
`(^\d{9,10}|\d{14}$)`, carries its anchors inside the OR: its left half only
anchors the start and its right half only anchors the end. -/

/-- Alternative 1, `^(\d{10})$`. -/
def alt1 (l : List Char) : Bool := l.length == 10 && allDigits l

/-- Alternative 2, `^(000|JJD01|JJD00|JVGL)\d+$`. -/
def alt2 (l : List Char) : Bool :=
  litThen "000" digits1 l || litThen "JJD01" digits1 l ||
  litThen "JJD00" digits1 l || litThen "JVGL" digits1 l

/-- Alternative 3, `^(GM|LX|RX|[a-zA-Z]{5})\d+$`. -/
def alt3 (l : List Char) : Bool :=
  litThen "GM" digits1 l || litThen "LX" digits1 l || litThen "RX" digits1 l ||
  (decide (5 ≤ l.length) && allAlpha (l.take 5) && digits1 (l.drop 5))

/-- Alternative 4, `^(\d{10,39})$`. -/
def alt4 (l : List Char) : Bool :=
  decide (10 ≤ l.length) && decide (l.length ≤ 39) && allDigits l

/-- Alternative 5, `^(3S|JVGL|JJD)[a-zA-Z0-9]+$`. -/
def alt5 (l : List Char) : Bool :=
  litThen "3S" alnum1 l || litThen "JVGL" alnum1 l || litThen "JJD" alnum1 l

/-- Alternative 6, `^\d{7}$`. -/
def alt6 (l : List Char) : Bool := l.length == 7 && allDigits l

/-- Alternative 7, `^\d[a-zA-Z]{2}\d{4,6}$`. -/
def alt7 (l : List Char) : Bool :=
  match l with
  | c0 :: c1 :: c2 :: rest =>
      c0.isDigit && c1.isAlpha && c2.isAlpha &&
      decide (4 ≤ rest.length) && decide (rest.length ≤ 6) && allDigits rest
  | _ => false

/-- Alternative 8, `^[a-zA-Z]{3,4}\d+$`. -/
def alt8 (l : List Char) : Bool :=
  (decide (3 ≤ l.length) && allAlpha (l.take 3) && digits1 (l.drop 3)) ||
  (decide (4 ≤ l.length) && allAlpha (l.take 4) && digits1 (l.drop 4))

/-- Alternative 9, `^\d{3}-\d{8}$`. -/
def alt9 (l : List Char) : Bool :=
  l.length == 12 && allDigits (l.take 3) && hyphenAt l 3 && allDigits (l.drop 4)

/-- One decomposition of alternative 10 with the first letter group of length
`m` and the second of length `n`. -/
def alt10seg (m n : Nat) (l : List Char) : Bool :=
  l.length == m + n + 9 && allAlpha (l.take m) && hyphenAt l m &&
  allAlpha ((l.drop (m + 1)).take n) && hyphenAt l (m + 1 + n) &&
  allDigits (l.drop (m + n + 2))

/-- Alternative 10, `^[a-zA-Z]{2,3}-[a-zA-Z]{2,3}-\d{7}$`. -/
def alt10 (l : List Char) : Bool :=
  alt10seg 2 2 l || alt10seg 2 3 l || alt10seg 3 2 l || alt10seg 3 3 l

/-- Alternative 11, `^\d{4}-\d{5}$`. -/
def alt11 (l : List Char) : Bool :=
  l.length == 10 && allDigits (l.take 4) && hyphenAt l 4 && allDigits (l.drop 5)

/-- Alternative 12, `(^\d{9,10}|\d{14}$)`: either the string starts with 9 (or
10) digits, with anything after them, or it ends with 14 digits, with anything
before them. -/
def alt12 (l : List Char) : Bool :=
  (decide (9 ≤ l.length) && allDigits (l.take 9)) ||
  (decide (10 ≤ l.length) && allDigits (l.take 10)) ||
  (decide (14 ≤ l.length) && allDigits (l.drop (l.length - 14)))

/-- `Regex::is_match` of the whole tracking-number regex on a string. -/
def dhlMatch (s : String) : Bool :=
  alt1 s.data || alt2 s.data || alt3 s.data || alt4 s.data || alt5 s.data ||
  alt6 s.data || alt7 s.data || alt8 s.data || alt9 s.data || alt10 s.data ||
  alt11 s.data || alt12 s.data

/-! ## `TrackingNumber` (`src/lib.rs` lines 209–224) -/

structure TrackingNumber where
  tracking_number : String
deriving DecidableEq

/-- `TrackingNumber::try_from`: reject if the raw string does not match the
regex, otherwise store the trimmed string. -/
def TrackingNumber.tryFrom (tracking_number : String) : Except String TrackingNumber :=
  if !dhlMatch tracking_number then
    .error "Tracking Number did not match DHL format"
  else
    .ok ⟨strTrim tracking_number⟩

/-- The request URI built by `Client::get_shipments` (lines 236–237) from a
`TrackingNumber` argument. -/
def requestUri (t : TrackingNumber) : String :=
  "https://api-eu.dhl.com/track/shipments?trackingNumber=" ++ t.tracking_number

/-- On a matching input `try_from` returns the trimmed input. -/
theorem tryFrom_ok_of_match {s : String} (h : dhlMatch s = true) :
    TrackingNumber.tryFrom s = .ok ⟨strTrim s⟩ := by
  unfold TrackingNumber.tryFrom
  rw [h]
  rfl

/-- On a non-matching input `try_from` returns the error. -/
theorem tryFrom_error_of_not_match {s : String} (h : dhlMatch s = false) :
    TrackingNumber.tryFrom s = .error "Tracking Number did not match DHL format" := by
  unfold TrackingNumber.tryFrom
  rw [h]
  rfl

/-! ## `Service` (`src/lib.rs` lines 13–40) -/

inductive Service where
  | Freight
  | Express
  | ParcelDE
  | ParcelNL
  | ParcelPL
  | DSC
  | DGF
  | Ecommerce
deriving DecidableEq

/-- `Service::try_from`: match on the trimmed input. -/
def Service.tryFrom (service : String) : Except String Service :=
  if strTrim service = "freight" then .ok .Freight
  else if strTrim service = "express" then .ok .Express
  else if strTrim service = "parcel-de" then .ok .ParcelDE
  else if strTrim service = "parcel-nl" then .ok .ParcelNL
  else if strTrim service = "dsc" then .ok .DSC
  else if strTrim service = "dgf" then .ok .DGF
  else if strTrim service = "ecommerce" then .ok .Ecommerce
  else .error "Not a valid service"

/-! ## `StatusCode` (`src/lib.rs` lines 42–64) -/

inductive StatusCode where
  | PreTransit
  | Transit
  | Delivered
  | Failure
  | Unknown
deriving DecidableEq

/-- `StatusCode::try_from`: match on the trimmed input. -/
def StatusCode.tryFrom (status_code : String) : Except String StatusCode :=
  if strTrim status_code = "pre-transit" then .ok .PreTransit
  else if strTrim status_code = "transit" then .ok .Transit
  else if strTrim status_code = "delivered" then .ok .Delivered
  else if strTrim status_code = "failure" then .ok .Failure
  else if strTrim status_code = "unknown" then .ok .Unknown
  else .error "Not a valid status code"

/-! ## Claims C1, C2, C3, C8 -/

/-- Claim C1: `TrackingNumber` validation succeeds exactly when the raw,
untrimmed input matches the twelve-alternative pattern set; on success the
stored value is the trimmed input, on failure the result is the
invalid-tracking-number error.  In particular an input that would match only
after trimming is rejected, since matching is performed on the raw string. -/
theorem trackingNumber_tryFrom_spec (s : String) :
    (dhlMatch s = true → TrackingNumber.tryFrom s = .ok ⟨strTrim s⟩) ∧
    (dhlMatch s = false →
      TrackingNumber.tryFrom s = .error "Tracking Number did not match DHL format") ∧
    ((∃ t, TrackingNumber.tryFrom s = .ok t) ↔ dhlMatch s = true) := by
  refine ⟨fun h => tryFrom_ok_of_match h, fun h => tryFrom_error_of_not_match h, ?_⟩
  constructor
  · rintro ⟨t, ht⟩
    by_contra hc
    rw [tryFrom_error_of_not_match (Bool.eq_false_iff.mpr hc)] at ht
    exact Except.noConfusion ht
  · intro h
    exact ⟨⟨strTrim s⟩, tryFrom_ok_of_match h⟩

/-- Witness for C1: `" 1234567890 "` matches no pattern raw (so it is
rejected even though its trimmed form matches), while `"1234567890"` is
accepted and stored as is. -/
theorem trackingNumber_tryFrom_spec_witness :
    TrackingNumber.tryFrom " 1234567890 " = .error "Tracking Number did not match DHL format" ∧
    TrackingNumber.tryFrom "1234567890" = .ok ⟨"1234567890"⟩ :=
  ⟨(trackingNumber_tryFrom_spec " 1234567890 ").2.1 (by decide),
   (trackingNumber_tryFrom_spec "1234567890").1 (by decide)⟩

/-- Claim C2: the twelfth alternative is half-anchored.  Any string whose
first 9 characters are digits is accepted by the validator regardless of what
follows, and any string whose last 14 characters are digits is accepted
regardless of what precedes. -/
theorem dhlMatch_twelfth_alternative (s : String) :
    (9 ≤ s.data.length ∧ allDigits (s.data.take 9) = true) ∨
    (14 ≤ s.data.length ∧ allDigits (s.data.drop (s.data.length - 14)) = true) →
    TrackingNumber.tryFrom s = .ok ⟨strTrim s⟩ := by
  intro h
  have h12 : alt12 s.data = true := by
    unfold alt12
    simp only [Bool.or_eq_true, Bool.and_eq_true, decide_eq_true_eq]
    rcases h with ⟨h1, h2⟩ | ⟨h1, h2⟩
    · exact Or.inl (Or.inl ⟨h1, h2⟩)
    · exact Or.inr ⟨h1, h2⟩
  have hm : dhlMatch s = true := by
    unfold dhlMatch
    simp [h12]
  exact tryFrom_ok_of_match hm

/-- Witness for C2: `"123456789!!!"` (first 9 characters digits, junk after)
and `"abc!12345678901234"` (last 14 characters digits, junk before) are both
accepted, although neither consists solely of 9–10 or of 14 digits. -/
theorem dhlMatch_twelfth_alternative_witness :
    TrackingNumber.tryFrom "123456789!!!" = .ok ⟨"123456789!!!"⟩ ∧
    TrackingNumber.tryFrom "abc!12345678901234" = .ok ⟨"abc!12345678901234"⟩ :=
  ⟨dhlMatch_twelfth_alternative "123456789!!!" (Or.inl (by decide)),
   dhlMatch_twelfth_alternative "abc!12345678901234" (Or.inr (by decide))⟩

/-- Claim C3: `Service` parsing succeeds exactly on the seven listed strings
(after trimming), mapping each to its variant; every other input, including
differently-cased ones, yields the error, and `ParcelPL` is never produced. -/
theorem service_tryFrom_spec (s : String) :
    (Service.tryFrom s = .ok .Freight ↔ strTrim s = "freight") ∧
    (Service.tryFrom s = .ok .Express ↔ strTrim s = "express") ∧
    (Service.tryFrom s = .ok .ParcelDE ↔ strTrim s = "parcel-de") ∧
    (Service.tryFrom s = .ok .ParcelNL ↔ strTrim s = "parcel-nl") ∧
    (Service.tryFrom s = .ok .DSC ↔ strTrim s = "dsc") ∧
    (Service.tryFrom s = .ok .DGF ↔ strTrim s = "dgf") ∧
    (Service.tryFrom s = .ok .Ecommerce ↔ strTrim s = "ecommerce") ∧
    (Service.tryFrom s ≠ .ok .ParcelPL) ∧
    ((∃ v, Service.tryFrom s = .ok v) ↔
      strTrim s ∈ (["freight", "express", "parcel-de", "parcel-nl", "dsc", "dgf",
        "ecommerce"] : List String)) ∧
    (strTrim s ∉ (["freight", "express", "parcel-de", "parcel-nl", "dsc", "dgf",
        "ecommerce"] : List String) →
      Service.tryFrom s = .error "Not a valid service") := by
  unfold Service.tryFrom
  split_ifs with h1 h2 h3 h4 h5 h6 h7 <;> simp_all

/-- Witness for C3: `"PARCEL-DE"` fails (case-sensitive) and `"  express  "`
parses to `Express` (whitespace is trimmed). -/
theorem service_tryFrom_spec_witness :
    Service.tryFrom "PARCEL-DE" = .error "Not a valid service" ∧
    Service.tryFrom "  express  " = .ok .Express :=
  ⟨(service_tryFrom_spec "PARCEL-DE").2.2.2.2.2.2.2.2.2 (by decide),
   ((service_tryFrom_spec "  express  ").2.1).mpr (by decide)⟩

/-- Claim C8: every `TrackingNumber` produced by validation wraps the trimmed
form of an input whose untrimmed form matched the pattern set, and the network
request URI is built from exactly that stored, validated value. -/
theorem trackingNumber_invariant (s : String) (t : TrackingNumber) :
    TrackingNumber.tryFrom s = .ok t →
    dhlMatch s = true ∧ t.tracking_number = strTrim s ∧
    requestUri t = "https://api-eu.dhl.com/track/shipments?trackingNumber=" ++ strTrim s := by
  intro h
  cases hm : dhlMatch s with
  | false =>
      rw [tryFrom_error_of_not_match hm] at h
      exact Except.noConfusion h
  | true =>
      rw [tryFrom_ok_of_match hm] at h
      cases Except.ok.inj h
      exact ⟨rfl, rfl, rfl⟩

/-- Witness for C8: the tracking number validated from `"1234567890 "` stores
its trimmed form and the request URI embeds that stored value. -/
theorem trackingNumber_invariant_witness :
    dhlMatch "1234567890 " = true ∧
    (TrackingNumber.mk (strTrim "1234567890 ")).tracking_number = strTrim "1234567890 " ∧
    requestUri ⟨strTrim "1234567890 "⟩ =
      "https://api-eu.dhl.com/track/shipments?trackingNumber=" ++ strTrim "1234567890 " :=
  trackingNumber_invariant "1234567890 " ⟨strTrim "1234567890 "⟩ (by rfl)


/-! ## Date parsing (`src/lib.rs` lines 181–207)

`deserialize_dhl_datetime` parses `%Y-%m-%dT%H:%M:%S` with chrono and wraps
the naive result in `DateTime<Utc>` (`from_utc` attaches the UTC marker
without shifting the fields), and `deserialize_dhl_date` first appends the
literal `" 00:00:01"` to the input and then parses `%Y-%m-%d %H:%M:%S`.
The format parser is modelled on the face reading of the format string:
four digits for `%Y`, two digits for each other field, the literal
separators in between, the whole input consumed, and the calendar/clock
ranges (including leap years) checked. -/

/-- A UTC timestamp, represented by its calendar and clock fields (the field
content of chrono's `NaiveDateTime` tagged with `Utc`). -/
structure DateTimeUtc where
  year : Nat
  month : Nat
  day : Nat
  hour : Nat
  minute : Nat
  second : Nat
deriving DecidableEq

/-- Numeric value of an ASCII digit character. -/
def digitVal (c : Char) : Nat := c.toNat - 48

/-- ASCII digit test used by the numeric scanner. -/
def isDigitByte (c : Char) : Bool := decide (48 ≤ c.toNat) && decide (c.toNat ≤ 57)

/-- Scan exactly `n` digits, returning their value and the rest of the input. -/
def takeDigits : Nat → List Char → Option (Nat × List Char)
  | 0, l => some (0, l)
  | _ + 1, [] => none
  | n + 1, c :: rest =>
      if isDigitByte c then
        match takeDigits n rest with
        | some (v, r) => some (digitVal c * 10 ^ n + v, r)
        | none => none
      else none

/-- Consume one expected literal character. -/
def expectChar (c : Char) : List Char → Option (List Char)
  | [] => none
  | d :: rest => if d = c then some rest else none

/-- Proleptic-Gregorian leap-year rule used by chrono's calendar check. -/
def isLeapYear (y : Nat) : Bool := (y % 4 == 0 && y % 100 != 0) || y % 400 == 0

/-- Number of days of month `m` in year `y`. -/
def daysInMonth (y m : Nat) : Nat :=
  if m == 2 then (if isLeapYear y then 29 else 28)
  else if m == 4 || m == 6 || m == 9 || m == 11 then 30
  else 31

/-- Calendar validity of a year-month-day triple. -/
def validYmd (y mo d : Nat) : Bool :=
  decide (1 ≤ mo) && decide (mo ≤ 12) && decide (1 ≤ d) && decide (d ≤ daysInMonth y mo)

/-- Clock validity of an hour-minute-second triple. -/
def validHms (h mi s : Nat) : Bool :=
  decide (h ≤ 23) && decide (mi ≤ 59) && decide (s ≤ 59)

/-- Parse `%Y-%m-%d`. -/
def parseDatePart (l : List Char) : Option (Nat × Nat × Nat × List Char) := do
  let (y, l1) ← takeDigits 4 l
  let l2 ← expectChar '-' l1
  let (mo, l3) ← takeDigits 2 l2
  let l4 ← expectChar '-' l3
  let (d, l5) ← takeDigits 2 l4
  some (y, mo, d, l5)

/-- Parse `%H:%M:%S`. -/
def parseTimePart (l : List Char) : Option (Nat × Nat × Nat × List Char) := do
  let (h, l1) ← takeDigits 2 l
  let l2 ← expectChar ':' l1
  let (mi, l3) ← takeDigits 2 l2
  let l4 ← expectChar ':' l3
  let (s, l5) ← takeDigits 2 l4
  some (h, mi, s, l5)

/-- Parse `%Y-%m-%d<sep>%H:%M:%S` against the whole input, checking calendar
and clock validity as chrono does.  `sep` is `'T'` for the date-time format
and `' '` for the date format. -/
def parseYmdHms (sep : Char) (l : List Char) : Option DateTimeUtc := do
  let (y, mo, d, l1) ← parseDatePart l
  let l2 ← expectChar sep l1
  let (h, mi, s, l3) ← parseTimePart l2
  if l3.isEmpty && validYmd y mo d && validHms h mi s then
    some ⟨y, mo, d, h, mi, s⟩
  else none

/-- `deserialize_dhl_datetime` after the string has been extracted from the
deserializer: parse `%Y-%m-%dT%H:%M:%S`, wrap in UTC, or report the error. -/
def deserialize_dhl_datetime_str (date_str : String) : Except String DateTimeUtc :=
  match parseYmdHms 'T' date_str.data with
  | some dt => .ok dt
  | none => .error "Could not parse date"

/-- `deserialize_dhl_date` after the string has been extracted from the
deserializer: append `" 00:00:01"`, parse `%Y-%m-%d %H:%M:%S`, wrap in UTC,
or report the error. -/
def deserialize_dhl_date_str (date_str : String) : Except String DateTimeUtc :=
  match parseYmdHms ' ' (date_str ++ " 00:00:01").data with
  | some dt => .ok dt
  | none => .error "Could not parse date"

/-- Render `v` as exactly `w` ASCII digits, most significant first. -/
def padDigits : Nat → Nat → List Char
  | 0, _ => []
  | w + 1, v => Char.ofNat (48 + v / 10 ^ w) :: padDigits w (v % 10 ^ w)

/-- The canonical text of a `%Y-%m-%d` date. -/
def renderDate (y mo d : Nat) : List Char :=
  padDigits 4 y ++ '-' :: (padDigits 2 mo ++ '-' :: padDigits 2 d)

/-- The canonical text of a `%H:%M:%S` time. -/
def renderTime (h mi s : Nat) : List Char :=
  padDigits 2 h ++ ':' :: (padDigits 2 mi ++ ':' :: padDigits 2 s)

/-- The canonical text of a full timestamp with separator `sep`. -/
def renderDateTime (sep : Char) (dt : DateTimeUtc) : List Char :=
  renderDate dt.year dt.month dt.day ++ sep :: renderTime dt.hour dt.minute dt.second

/-- The characters `'0'`–`'9'` produced by `padDigits` are digits and carry
their own value. -/
theorem digitChar_facts : ∀ k, k < 10 →
    isDigitByte (Char.ofNat (48 + k)) = true ∧ (Char.ofNat (48 + k)).toNat = 48 + k := by
  decide

theorem padDigits_length (w : Nat) : ∀ v, (padDigits w v).length = w := by
  induction w with
  | zero => intro v; rfl
  | succ w ih => intro v; simp [padDigits, ih]

/-- Scanning `w` digits off a `w`-digit rendering recovers the value. -/
theorem takeDigits_padDigits (w : Nat) : ∀ v, v < 10 ^ w → ∀ rest : List Char,
    takeDigits w (padDigits w v ++ rest) = some (v, rest) := by
  induction w with
  | zero =>
      intro v hv rest
      have hv0 : v = 0 := Nat.lt_one_iff.mp (by simpa using hv)
      subst hv0
      rfl
  | succ w ih =>
      intro v hv rest
      have hpow : (0:Nat) < 10 ^ w := pow_pos (by norm_num) w
      have hdlt : v / 10 ^ w < 10 :=
        Nat.div_lt_of_lt_mul (by rw [Nat.mul_comm, ← pow_succ']; exact hv)
      obtain ⟨hdig, htn⟩ := digitChar_facts (v / 10 ^ w) hdlt
      have hmod : v % 10 ^ w < 10 ^ w := Nat.mod_lt _ hpow
      have hval : digitVal (Char.ofNat (48 + v / 10 ^ w)) = v / 10 ^ w := by
        show (Char.ofNat (48 + v / 10 ^ w)).toNat - 48 = v / 10 ^ w
        rw [htn, Nat.add_sub_cancel_left]
      show takeDigits (w + 1)
        ((Char.ofNat (48 + v / 10 ^ w) :: padDigits w (v % 10 ^ w)) ++ rest) = _
      simp only [List.cons_append, takeDigits]
      rw [if_pos hdig]
      simp only [List.append_eq, ih _ hmod rest, hval, Nat.div_add_mod']

/-- A successful `w`-digit scan means the input began with the `w`-digit
rendering of the scanned value. -/
theorem takeDigits_eq_some (w : Nat) : ∀ {l : List Char} {v : Nat} {r : List Char},
    takeDigits w l = some (v, r) → v < 10 ^ w ∧ l = padDigits w v ++ r := by
  induction w with
  | zero =>
      intro l v r h
      simp only [takeDigits, Option.some.injEq, Prod.mk.injEq] at h
      obtain ⟨hv, hl⟩ := h
      subst hv
      subst hl
      exact ⟨Nat.one_pos, rfl⟩
  | succ w ih =>
      intro l v r h
      match l with
      | [] => exact absurd h (by simp [takeDigits])
      | c :: rest =>
          simp only [takeDigits] at h
          by_cases hc : isDigitByte c = true
          · rw [if_pos hc] at h
            cases hrec : takeDigits w rest with
            | none => rw [hrec] at h; exact absurd h (by simp)
            | some p =>
                obtain ⟨p1, r1⟩ := p
                rw [hrec] at h
                simp only [Option.some.injEq, Prod.mk.injEq] at h
                obtain ⟨hv, hr⟩ := h
                subst hr
                obtain ⟨hp1, hrest⟩ := ih hrec
                have hcb : 48 ≤ c.toNat ∧ c.toNat ≤ 57 := by
                  unfold isDigitByte at hc
                  simp only [Bool.and_eq_true, decide_eq_true_eq] at hc
                  exact hc
                have hdv : digitVal c ≤ 9 := by unfold digitVal; omega
                constructor
                · rw [← hv]
                  have h1 : digitVal c * 10 ^ w ≤ 9 * 10 ^ w :=
                    Nat.mul_le_mul_right _ hdv
                  have h2 : (10:Nat) ^ (w + 1) = 10 ^ w * 10 := pow_succ 10 w
                  omega
                · have hdiv : v / 10 ^ w = digitVal c := by
                    rw [← hv, Nat.mul_comm, Nat.mul_add_div (pow_pos (by norm_num) w),
                      Nat.div_eq_of_lt hp1, Nat.add_zero]
                  have hmod : v % 10 ^ w = p1 := by
                    rw [← hv, Nat.mul_comm, Nat.mul_add_mod, Nat.mod_eq_of_lt hp1]
                  have hchar : Char.ofNat (48 + v / 10 ^ w) = c := by
                    rw [hdiv]
                    have h48 : 48 + digitVal c = c.toNat := by unfold digitVal; omega
                    rw [h48, Char.ofNat_toNat]
                  simp only [padDigits, List.cons_append, hchar, hmod, hrest]
          · rw [if_neg hc] at h
            exact absurd h (by simp)

theorem expectChar_cons (c : Char) (l : List Char) : expectChar c (c :: l) = some l := by
  simp [expectChar]

theorem expectChar_eq_some {c : Char} : ∀ {l r : List Char},
    expectChar c l = some r → l = c :: r := by
  intro l r h
  cases l with
  | nil => exact absurd h (by simp [expectChar])
  | cons d rest =>
      simp only [expectChar] at h
      by_cases hdc : d = c
      · rw [if_pos hdc] at h
        injection h with h2
        rw [hdc, h2]
      · rw [if_neg hdc] at h
        exact absurd h (by simp)

/-- Parsing the canonical rendering of a date recovers its fields. -/
theorem parseDatePart_render (y mo d : Nat) (rest : List Char)
    (hy : y < 10 ^ 4) (hmo : mo < 100) (hd : d < 100) :
    parseDatePart (renderDate y mo d ++ rest) = some (y, mo, d, rest) := by
  have hmo2 : mo < 10 ^ 2 := by simpa using hmo
  have hd2 : d < 10 ^ 2 := by simpa using hd
  have hshape : renderDate y mo d ++ rest =
      padDigits 4 y ++ ('-' :: (padDigits 2 mo ++ ('-' :: (padDigits 2 d ++ rest)))) := by
    simp [renderDate]
  rw [hshape]
  simp only [parseDatePart, Option.bind_eq_bind, takeDigits_padDigits 4 y hy,
    Option.some_bind, expectChar_cons, takeDigits_padDigits 2 mo hmo2,
    takeDigits_padDigits 2 d hd2]

/-- Parsing the canonical rendering of a time recovers its fields. -/
theorem parseTimePart_render (h mi s : Nat) (rest : List Char)
    (hh : h < 100) (hmi : mi < 100) (hs : s < 100) :
    parseTimePart (renderTime h mi s ++ rest) = some (h, mi, s, rest) := by
  have hh2 : h < 10 ^ 2 := by simpa using hh
  have hmi2 : mi < 10 ^ 2 := by simpa using hmi
  have hs2 : s < 10 ^ 2 := by simpa using hs
  have hshape : renderTime h mi s ++ rest =
      padDigits 2 h ++ (':' :: (padDigits 2 mi ++ (':' :: (padDigits 2 s ++ rest)))) := by
    simp [renderTime]
  rw [hshape]
  simp only [parseTimePart, Option.bind_eq_bind, takeDigits_padDigits 2 h hh2,
    Option.some_bind, expectChar_cons, takeDigits_padDigits 2 mi hmi2,
    takeDigits_padDigits 2 s hs2]

/-- A date that parses was written exactly in the canonical form. -/
theorem parseDatePart_eq_some : ∀ {l : List Char} {y mo d : Nat} {r : List Char},
    parseDatePart l = some (y, mo, d, r) →
    y < 10 ^ 4 ∧ mo < 100 ∧ d < 100 ∧ l = renderDate y mo d ++ r := by
  intro l y mo d r hp
  unfold parseDatePart at hp
  cases e1 : takeDigits 4 l with
  | none => rw [e1] at hp; simp at hp
  | some p1 =>
      obtain ⟨y1, l1⟩ := p1
      rw [e1] at hp
      simp only [Option.bind_eq_bind, Option.some_bind] at hp
      cases e2 : expectChar '-' l1 with
      | none => rw [e2] at hp; simp at hp
      | some l2 =>
          rw [e2] at hp
          simp only [Option.some_bind] at hp
          cases e3 : takeDigits 2 l2 with
          | none => rw [e3] at hp; simp at hp
          | some p2 =>
              obtain ⟨mo1, l3⟩ := p2
              rw [e3] at hp
              simp only [Option.some_bind] at hp
              cases e4 : expectChar '-' l3 with
              | none => rw [e4] at hp; simp at hp
              | some l4 =>
                  rw [e4] at hp
                  simp only [Option.some_bind] at hp
                  cases e5 : takeDigits 2 l4 with
                  | none => rw [e5] at hp; simp at hp
                  | some p3 =>
                      obtain ⟨d1, l5⟩ := p3
                      rw [e5] at hp
                      simp only [Option.some_bind, Option.some.injEq,
                        Prod.mk.injEq] at hp
                      obtain ⟨hy1, hmo1, hd1, hl5⟩ := hp
                      subst hy1; subst hmo1; subst hd1; subst hl5
                      obtain ⟨hyb, hl⟩ := takeDigits_eq_some 4 e1
                      obtain ⟨hmob, hl2⟩ := takeDigits_eq_some 2 e3
                      obtain ⟨hdb, hl4⟩ := takeDigits_eq_some 2 e5
                      have hc1 := expectChar_eq_some e2
                      have hc2 := expectChar_eq_some e4
                      refine ⟨hyb, by simpa using hmob, by simpa using hdb, ?_⟩
                      subst hl; subst hc1; subst hl2; subst hc2; subst hl4
                      simp [renderDate]

/-- A time that parses was written exactly in the canonical form. -/
theorem parseTimePart_eq_some : ∀ {l : List Char} {h mi s : Nat} {r : List Char},
    parseTimePart l = some (h, mi, s, r) →
    h < 100 ∧ mi < 100 ∧ s < 100 ∧ l = renderTime h mi s ++ r := by
  intro l h mi s r hp
  unfold parseTimePart at hp
  cases e1 : takeDigits 2 l with
  | none => rw [e1] at hp; simp at hp
  | some p1 =>
      obtain ⟨h1, l1⟩ := p1
      rw [e1] at hp
      simp only [Option.bind_eq_bind, Option.some_bind] at hp
      cases e2 : expectChar ':' l1 with
      | none => rw [e2] at hp; simp at hp
      | some l2 =>
          rw [e2] at hp
          simp only [Option.some_bind] at hp
          cases e3 : takeDigits 2 l2 with
          | none => rw [e3] at hp; simp at hp
          | some p2 =>
              obtain ⟨mi1, l3⟩ := p2
              rw [e3] at hp
              simp only [Option.some_bind] at hp
              cases e4 : expectChar ':' l3 with
              | none => rw [e4] at hp; simp at hp
              | some l4 =>
                  rw [e4] at hp
                  simp only [Option.some_bind] at hp
                  cases e5 : takeDigits 2 l4 with
                  | none => rw [e5] at hp; simp at hp
                  | some p3 =>
                      obtain ⟨s1, l5⟩ := p3
                      rw [e5] at hp
                      simp only [Option.some_bind, Option.some.injEq,
                        Prod.mk.injEq] at hp
                      obtain ⟨hh1, hmi1, hs1, hl5⟩ := hp
                      subst hh1; subst hmi1; subst hs1; subst hl5
                      obtain ⟨hhb, hl⟩ := takeDigits_eq_some 2 e1
                      obtain ⟨hmib, hl2⟩ := takeDigits_eq_some 2 e3
                      obtain ⟨hsb, hl4⟩ := takeDigits_eq_some 2 e5
                      have hc1 := expectChar_eq_some e2
                      have hc2 := expectChar_eq_some e4
                      refine ⟨by simpa using hhb, by simpa using hmib,
                        by simpa using hsb, ?_⟩
                      subst hl; subst hc1; subst hl2; subst hc2; subst hl4
                      simp [renderTime]

theorem validYmd_bounds {y mo d : Nat} (h : validYmd y mo d = true) :
    mo < 100 ∧ d < 100 := by
  unfold validYmd at h
  simp only [Bool.and_eq_true, decide_eq_true_eq] at h
  have hdm : daysInMonth y mo ≤ 31 := by
    unfold daysInMonth
    split_ifs <;> omega
  omega

theorem validHms_bounds {h mi s : Nat} (hv : validHms h mi s = true) :
    h < 100 ∧ mi < 100 ∧ s < 100 := by
  unfold validHms at hv
  simp only [Bool.and_eq_true, decide_eq_true_eq] at hv
  omega

/-- Parsing the canonical rendering of a valid timestamp recovers it. -/
theorem parseYmdHms_render (sep : Char) (dt : DateTimeUtc)
    (hy : dt.year < 10 ^ 4)
    (hv : validYmd dt.year dt.month dt.day = true)
    (ht : validHms dt.hour dt.minute dt.second = true) :
    parseYmdHms sep (renderDateTime sep dt) = some dt := by
  obtain ⟨hmo, hd⟩ := validYmd_bounds hv
  obtain ⟨hh, hmi, hs⟩ := validHms_bounds ht
  have h1 : parseDatePart (renderDateTime sep dt) =
      some (dt.year, dt.month, dt.day, sep :: renderTime dt.hour dt.minute dt.second) := by
    unfold renderDateTime
    exact parseDatePart_render dt.year dt.month dt.day _ hy hmo hd
  have h3 : parseTimePart (renderTime dt.hour dt.minute dt.second) =
      some (dt.hour, dt.minute, dt.second, []) := by
    have := parseTimePart_render dt.hour dt.minute dt.second [] hh hmi hs
    rwa [List.append_nil] at this
  simp only [parseYmdHms, Option.bind_eq_bind, h1, Option.some_bind, expectChar_cons,
    h3, List.isEmpty_nil, hv, ht,  Bool.and_self, if_true]

/-- A timestamp that parses was written exactly in the canonical form and is
calendar- and clock-valid. -/
theorem parseYmdHms_eq_some {sep : Char} : ∀ {l : List Char} {dt : DateTimeUtc},
    parseYmdHms sep l = some dt →
    l = renderDateTime sep dt ∧ dt.year < 10 ^ 4 ∧
    validYmd dt.year dt.month dt.day = true ∧
    validHms dt.hour dt.minute dt.second = true := by
  intro l dt hp
  unfold parseYmdHms at hp
  cases e1 : parseDatePart l with
  | none => rw [e1] at hp; simp at hp
  | some q1 =>
      obtain ⟨y, mo, d, l1⟩ := q1
      rw [e1] at hp
      simp only [Option.bind_eq_bind, Option.some_bind] at hp
      cases e2 : expectChar sep l1 with
      | none => rw [e2] at hp; simp at hp
      | some l2 =>
          rw [e2] at hp
          simp only [Option.some_bind] at hp
          cases e3 : parseTimePart l2 with
          | none => rw [e3] at hp; simp at hp
          | some q2 =>
              obtain ⟨h, mi, s, l3⟩ := q2
              rw [e3] at hp
              simp only [Option.some_bind] at hp
              split at hp
              · rename_i hcond
                injection hp with hdt
                subst hdt
                simp only [Bool.and_eq_true, List.isEmpty_eq_true] at hcond
                obtain ⟨⟨hemp, hymd⟩, hhms⟩ := hcond
                obtain ⟨hyb, hmob, hdb, hl⟩ := parseDatePart_eq_some e1
                have hc := expectChar_eq_some e2
                obtain ⟨hhb, hmib, hsb, hl2⟩ := parseTimePart_eq_some e3
                subst hemp
                refine ⟨?_, hyb, hymd, hhms⟩
                rw [hl, hc, hl2]
                simp [renderDateTime]
              · exact absurd hp (by simp)

/-- `String` append acts as list append on the character data. -/
theorem strData_append (a b : String) : (a ++ b).data = a.data ++ b.data := by
  cases a
  cases b
  rfl

theorem renderTime_length (h mi s : Nat) : (renderTime h mi s).length = 8 := by
  simp [renderTime, padDigits_length]

/-! ## Claims C6 and C7 -/

/-- Claim C7: date-time parsing accepts exactly the strings of the format
`YYYY-MM-DDTHH:MM:SS` carrying a calendar- and clock-valid timestamp, and
interprets the fields directly as UTC with no timezone conversion; every
other string yields the parse error. -/
theorem deserialize_dhl_datetime_spec (s : String) :
    (∀ dt : DateTimeUtc, dt.year < 10000 →
      validYmd dt.year dt.month dt.day = true →
      validHms dt.hour dt.minute dt.second = true →
      s.data = renderDateTime 'T' dt →
      deserialize_dhl_datetime_str s = .ok dt) ∧
    (∀ dt, deserialize_dhl_datetime_str s = .ok dt →
      s.data = renderDateTime 'T' dt ∧
      validYmd dt.year dt.month dt.day = true ∧
      validHms dt.hour dt.minute dt.second = true) ∧
    (parseYmdHms 'T' s.data = none →
      deserialize_dhl_datetime_str s = .error "Could not parse date") := by
  refine ⟨?_, ?_, ?_⟩
  · intro dt hy hv ht hs
    have hy4 : dt.year < 10 ^ 4 := by simpa using hy
    unfold deserialize_dhl_datetime_str
    rw [hs, parseYmdHms_render 'T' dt hy4 hv ht]
  · intro dt h
    unfold deserialize_dhl_datetime_str at h
    cases e : parseYmdHms 'T' s.data with
    | none => rw [e] at h; simp at h
    | some dt2 =>
        rw [e] at h
        simp only [Except.ok.injEq] at h
        subst h
        obtain ⟨hl, _, hv, ht⟩ := parseYmdHms_eq_some e
        exact ⟨hl, hv, ht⟩
  · intro e
    unfold deserialize_dhl_datetime_str
    rw [e]

/-- Witness for C7: `"2021-06-15T10:30:00"` parses to the UTC timestamp with
exactly those fields. -/
theorem deserialize_dhl_datetime_spec_witness :
    deserialize_dhl_datetime_str "2021-06-15T10:30:00" =
      .ok ⟨2021, 6, 15, 10, 30, 0⟩ :=
  (deserialize_dhl_datetime_spec "2021-06-15T10:30:00").1 ⟨2021, 6, 15, 10, 30, 0⟩
    (by decide) (by decide) (by decide) (by decide)

/-- Claim C6: date-only parsing appends the synthetic time of day `00:00:01`
before parsing, so a well-formed `YYYY-MM-DD` string parses to that calendar
date at 00:00:01 UTC, and every other input yields the parse error with no
partial result. -/
theorem deserialize_dhl_date_spec (s : String) :
    (∀ y mo d : Nat, y < 10000 → validYmd y mo d = true →
      s.data = renderDate y mo d →
      deserialize_dhl_date_str s = .ok ⟨y, mo, d, 0, 0, 1⟩) ∧
    (∀ dt, deserialize_dhl_date_str s = .ok dt →
      dt.hour = 0 ∧ dt.minute = 0 ∧ dt.second = 1 ∧
      s.data = renderDate dt.year dt.month dt.day ∧
      validYmd dt.year dt.month dt.day = true) ∧
    (parseYmdHms ' ' (s ++ " 00:00:01").data = none →
      deserialize_dhl_date_str s = .error "Could not parse date") := by
  have hsp : (" 00:00:01" : String).data = ' ' :: renderTime 0 0 1 := by decide
  refine ⟨?_, ?_, ?_⟩
  · intro y mo d hy hv hs
    have hy4 : y < 10 ^ 4 := by simpa using hy
    unfold deserialize_dhl_date_str
    rw [strData_append, hs, hsp]
    have hshape : renderDate y mo d ++ ' ' :: renderTime 0 0 1 =
        renderDateTime ' ' ⟨y, mo, d, 0, 0, 1⟩ := rfl
    rw [hshape, parseYmdHms_render ' ' ⟨y, mo, d, 0, 0, 1⟩ hy4 hv
      (show validHms 0 0 1 = true by decide)]
  · intro dt h
    unfold deserialize_dhl_date_str at h
    cases e : parseYmdHms ' ' (s ++ " 00:00:01").data with
    | none => rw [e] at h; simp at h
    | some dt2 =>
        rw [e] at h
        simp only [Except.ok.injEq] at h
        subst h
        obtain ⟨hl, hy4, hv, ht⟩ := parseYmdHms_eq_some e
        rw [strData_append, hsp] at hl
        unfold renderDateTime at hl
        obtain ⟨hsd, htl⟩ := List.append_inj' hl (by simp [renderTime_length])
        injection htl with hsep htl2
        obtain ⟨hhb, hmib, hsb⟩ := validHms_bounds ht
        have h1 : parseTimePart (renderTime dt2.hour dt2.minute dt2.second ++ []) =
            some (dt2.hour, dt2.minute, dt2.second, []) :=
          parseTimePart_render _ _ _ [] hhb hmib hsb
        rw [List.append_nil, ← htl2] at h1
        have h2 : parseTimePart (renderTime 0 0 1) = some (0, 0, 1, []) := by decide
        rw [h2] at h1
        simp only [Option.some.injEq, Prod.mk.injEq] at h1
        obtain ⟨hh0, hmi0, hs1, -⟩ := h1
        exact ⟨hh0.symm, hmi0.symm, hs1.symm, hsd, hv⟩
  · intro e
    unfold deserialize_dhl_date_str
    rw [e]

/-- Witness for C6: `"2021-06-15"` parses to 2021-06-15 at 00:00:01 UTC. -/
theorem deserialize_dhl_date_spec_witness :
    deserialize_dhl_date_str "2021-06-15" = .ok ⟨2021, 6, 15, 0, 0, 1⟩ :=
  (deserialize_dhl_date_spec "2021-06-15").1 2021 6 15 (by decide) (by decide) (by decide)

/-! ## JSON model and the serde-derived decoders

The response body is JSON; `serde_json` drives the `Deserialize` derives of
the model structs (lines 66–157).  JSON values are modelled with integer
numbers (the only numeric field of the model, `totalNumberOfPieces: u32`, is
integral).  Struct decoding looks each renamed (camelCase) field up by name:
a missing required field is an error, a missing or `null` `Option` field is
`None`, and unknown fields are ignored, as in serde's default behaviour. -/

inductive Json where
  | null
  | bool (b : Bool)
  | num (n : Int)
  | str (s : String)
  | arr (xs : List Json)
  | obj (fields : List (String × Json))

/-- Lookup of a field of a JSON object by name. -/
def getField (fields : List (String × Json)) (name : String) : Option Json :=
  (fields.find? (fun p => p.1 == name)).map Prod.snd

/-- `String::deserialize`: succeeds only on a JSON string; in particular it
fails on `null` and on numbers. -/
def decodeString : Json → Except String String
  | .str s => .ok s
  | _ => .error "invalid type: expected a string"

/-- serde decoding of an `Option<T>` field: a missing field and an explicit
`null` both give `None`; any other present value must decode as a `T`. -/
def optField {α : Type} (fields : List (String × Json)) (name : String)
    (dec : Json → Except String α) : Except String (Option α) :=
  match getField fields name with
  | none => .ok none
  | some .null => .ok none
  | some v => (dec v).map some

/-- serde decoding of a required field: a missing field is an error. -/
def reqField {α : Type} (fields : List (String × Json)) (name : String)
    (dec : Json → Except String α) : Except String α :=
  match getField fields name with
  | none => .error ("missing field " ++ name)
  | some v => dec v

theorem except_bind_ok {ε α β : Type} (a : α) (f : α → Except ε β) :
    (Except.ok a : Except ε α) >>= f = f a := rfl

theorem except_bind_error {ε α β : Type} (e : ε) (f : α → Except ε β) :
    (Except.error e : Except ε α) >>= f = Except.error e := rfl

/-! ### The model structs (`src/lib.rs` lines 66–157) -/

structure Address where
  country_code : Option String
  postal_code : Option String
  address_locality : Option String
  street_address : Option String
deriving DecidableEq

def decodeAddress : Json → Except String Address
  | .obj fields => do
      let cc ← optField fields "countryCode" decodeString
      let pc ← optField fields "postalCode" decodeString
      let al ← optField fields "addressLocality" decodeString
      let sa ← optField fields "streetAddress" decodeString
      .ok ⟨cc, pc, al, sa⟩
  | _ => .error "invalid type: expected a map"

structure Place where
  address : Address
deriving DecidableEq

def decodePlace : Json → Except String Place
  | .obj fields => do
      let a ← reqField fields "address" decodeAddress
      .ok ⟨a⟩
  | _ => .error "invalid type: expected a map"

/-- `deserialize_status_code` (lines 168–179): extract a string from the
deserializer, convert it with `StatusCode::try_from`, and replace a
conversion failure by the custom error. -/
def deserialize_status_code (j : Json) : Except String (Option StatusCode) := do
  let status_code_str ← decodeString j
  match StatusCode.tryFrom status_code_str with
  | .ok code => .ok (some code)
  | .error _ => .error "Could not parse status code"

/-- The `status_code` field of `ShipmentEvent` (lines 87–89):
`#[serde(default)]` turns an absent field into `None`; a present field goes
through `deserialize_status_code`. -/
def statusCodeField (fields : List (String × Json)) : Except String (Option StatusCode) :=
  match getField fields "statusCode" with
  | none => .ok none
  | some v => deserialize_status_code v

/-- `deserialize_dhl_datetime` as a field decoder: extract a string from the
deserializer, then parse it; the `timestamp` field has no default, so it is
required. -/
def deserialize_dhl_datetime (j : Json) : Except String DateTimeUtc := do
  let date_str ← decodeString j
  deserialize_dhl_datetime_str date_str

structure ShipmentEvent where
  timestamp : DateTimeUtc
  location : Option Place
  status_code : Option StatusCode
  description : Option String
  remark : Option String
  next_steps : Option String
deriving DecidableEq

/-- serde deserialization of `ShipmentEvent` (lines 81–93), field names
renamed to camelCase. -/
def decodeShipmentEvent : Json → Except String ShipmentEvent
  | .obj fields => do
      let ts ← reqField fields "timestamp" deserialize_dhl_datetime
      let loc ← optField fields "location" decodePlace
      let sc ← statusCodeField fields
      let de ← optField fields "description" decodeString
      let re ← optField fields "remark" decodeString
      let ns ← optField fields "nextSteps" decodeString
      .ok ⟨ts, loc, sc, de, re, ns⟩
  | _ => .error "invalid type: expected a map"

structure Organization where
  description : String
  organization_name : String
deriving DecidableEq

def decodeOrganization : Json → Except String Organization
  | .obj fields => do
      let de ← reqField fields "description" decodeString
      let orgn ← reqField fields "organizationName" decodeString
      .ok ⟨de, orgn⟩
  | _ => .error "invalid type: expected a map"

structure Product where
  description : String
  product_name : String
deriving DecidableEq

def decodeProduct : Json → Except String Product
  | .obj fields => do
      let de ← reqField fields "description" decodeString
      let pn ← reqField fields "productName" decodeString
      .ok ⟨de, pn⟩
  | _ => .error "invalid type: expected a map"

structure Person where
  family_name : String
  given_name : String
  name : String
deriving DecidableEq

def decodePerson : Json → Except String Person
  | .obj fields => do
      let fam ← reqField fields "familyName" decodeString
      let giv ← reqField fields "givenName" decodeString
      let nm ← reqField fields "name" decodeString
      .ok ⟨fam, giv, nm⟩
  | _ => .error "invalid type: expected a map"

structure ProofOfDelivery where
  document_url : String
deriving DecidableEq

def decodeProofOfDelivery : Json → Except String ProofOfDelivery
  | .obj fields => do
      let u ← reqField fields "documentUrl" decodeString
      .ok ⟨u⟩
  | _ => .error "invalid type: expected a map"

/-- serde decoding of a `u32` from a JSON number: exactly the integers from
`0` to `2^32 - 1 = 4294967295` are accepted. -/
def decodeU32 : Json → Except String Nat
  | .num n =>
      if 0 ≤ n ∧ n ≤ 4294967295 then .ok n.toNat
      else .error "invalid value: integer out of range for u32"
  | _ => .error "invalid type: expected u32"

/-- serde decoding of a `Vec<String>`. -/
def decodeStringList : Json → Except String (List String)
  | .arr xs => xs.mapM decodeString
  | _ => .error "invalid type: expected a sequence"

structure ShipmentDetails where
  carrier : Option Organization
  product : Option Product
  receiver : Option Person
  sender : Option Person
  proof_of_delivery : ProofOfDelivery
  total_number_of_pieces : Nat
  piece_ids : List String
deriving DecidableEq

/-- serde deserialization of `ShipmentDetails` (lines 95–105), field names
renamed to camelCase; `totalNumberOfPieces` is a required `u32`. -/
def decodeShipmentDetails : Json → Except String ShipmentDetails
  | .obj fields => do
      let ca ← optField fields "carrier" decodeOrganization
      let pr ← optField fields "product" decodeProduct
      let rc ← optField fields "receiver" decodePerson
      let sd ← optField fields "sender" decodePerson
      let pod ← reqField fields "proofOfDelivery" decodeProofOfDelivery
      let tot ← reqField fields "totalNumberOfPieces" decodeU32
      let pids ← reqField fields "pieceIds" decodeStringList
      .ok ⟨ca, pr, rc, sd, pod, tot, pids⟩
  | _ => .error "invalid type: expected a map"

/-! ## The client (`src/lib.rs` lines 226–255) -/

/-- Modelled from the spec: the error enum of the `errors` module
(`src/errors.rs` is declared by `mod errors;` but its source is not in the
repository snapshot); the variants follow spec §7, with the payload-carrying
variants wrapping the underlying message. -/
inductive ClientError where
  | InvalidTrackingNumber
  | Unauthorized
  | ParcelNotFound
  | ServerError
  | TransportError (msg : String)
  | DeserializationError (msg : String)
deriving DecidableEq

/-- An HTTP response as delivered by the transport collaborator: a status
code and a body. -/
structure HttpResponse (β : Type) where
  status : Nat
  body : β

/-- The status dispatch and body parse of `Client::get_shipments`
(lines 244–253), as a function of the received response: 200 falls through
the match to the JSON parse of the body, 401/404 return early with their
dedicated errors, anything else returns early with `ServerError`.
`parse_body` stands for the `body_json::<Response>()` deserialization. -/
def get_shipments_response {β α : Type} (parse_body : β → Except String α)
    (response : HttpResponse β) : Except ClientError α :=
  if response.status = 200 then
    match parse_body response.body with
    | .ok res => .ok res
    | .error e => .error (ClientError.DeserializationError e)
  else if response.status = 401 then .error ClientError.Unauthorized
  else if response.status = 404 then .error ClientError.ParcelNotFound
  else .error ClientError.ServerError

/-! ## Claims C4, C5, C9, C10 -/

/-- Claim C4: the result of `get_shipments` is determined by the HTTP status:
200 proceeds to JSON parsing of the body, 401 gives `Unauthorized`, 404 gives
`ParcelNotFound`, everything else gives `ServerError`; and for any non-200
status the body parser is never consulted (the result is the same for every
parser). -/
theorem get_shipments_status_spec {β α : Type} (parse_body : β → Except String α)
    (r : HttpResponse β) :
    (r.status = 200 → get_shipments_response parse_body r =
      (match parse_body r.body with
       | .ok res => .ok res
       | .error e => .error (ClientError.DeserializationError e))) ∧
    (r.status = 401 →
      get_shipments_response parse_body r = .error ClientError.Unauthorized) ∧
    (r.status = 404 →
      get_shipments_response parse_body r = .error ClientError.ParcelNotFound) ∧
    (r.status ≠ 200 → r.status ≠ 401 → r.status ≠ 404 →
      get_shipments_response parse_body r = .error ClientError.ServerError) ∧
    (∀ parse2 : β → Except String α, r.status ≠ 200 →
      get_shipments_response parse_body r = get_shipments_response parse2 r) := by
  unfold get_shipments_response
  refine ⟨?_, ?_, ?_, ?_, ?_⟩
  · intro h
    rw [if_pos h]
  · intro h
    rw [h]
    norm_num
  · intro h
    rw [h]
    norm_num
  · intro h1 h2 h3
    rw [if_neg h1, if_neg h2, if_neg h3]
  · intro parse2 h
    rw [if_neg h, if_neg h]

/-- Witness for C4: a 401 response maps to `Unauthorized` even though the
supplied body parser would have failed. -/
theorem get_shipments_status_spec_witness :
    get_shipments_response (fun _ : String => (Except.error "junk" : Except String Nat))
      ⟨401, "ignored"⟩ = .error ClientError.Unauthorized :=
  (get_shipments_status_spec (fun _ : String => (Except.error "junk" : Except String Nat))
    ⟨401, "ignored"⟩).2.1 rfl

/-- A decoded `ShipmentEvent` carries exactly the value produced by the
`status_code` field decoder. -/
theorem decodeShipmentEvent_ok {fields : List (String × Json)} {ev : ShipmentEvent}
    (h : decodeShipmentEvent (.obj fields) = .ok ev) :
    statusCodeField fields = .ok ev.status_code := by
  simp only [decodeShipmentEvent] at h
  cases e1 : reqField fields "timestamp" deserialize_dhl_datetime with
  | error err => rw [e1] at h; simp [except_bind_error] at h
  | ok ts =>
      rw [e1] at h
      simp only [except_bind_ok] at h
      cases e2 : optField fields "location" decodePlace with
      | error err => rw [e2] at h; simp [except_bind_error] at h
      | ok loc =>
          rw [e2] at h
          simp only [except_bind_ok] at h
          cases e3 : statusCodeField fields with
          | error err => rw [e3] at h; simp [except_bind_error] at h
          | ok sc =>
              rw [e3] at h
              simp only [except_bind_ok] at h
              cases e4 : optField fields "description" decodeString with
              | error err => rw [e4] at h; simp [except_bind_error] at h
              | ok de =>
                  rw [e4] at h
                  simp only [except_bind_ok] at h
                  cases e5 : optField fields "remark" decodeString with
                  | error err => rw [e5] at h; simp [except_bind_error] at h
                  | ok re =>
                      rw [e5] at h
                      simp only [except_bind_ok] at h
                      cases e6 : optField fields "nextSteps" decodeString with
                      | error err => rw [e6] at h; simp [except_bind_error] at h
                      | ok ns =>
                          rw [e6] at h
                          simp only [except_bind_ok] at h
                          injection h with h2
                          subst h2
                          rfl

/-- A failing `status_code` field decoder makes the whole `ShipmentEvent`
deserialization fail. -/
theorem decodeShipmentEvent_status_error {fields : List (String × Json)} {e : String}
    (hst : statusCodeField fields = .error e) :
    ∀ ev : ShipmentEvent, decodeShipmentEvent (.obj fields) ≠ .ok ev := by
  intro ev
  simp only [decodeShipmentEvent]
  cases e1 : reqField fields "timestamp" deserialize_dhl_datetime with
  | error err => simp [except_bind_error]
  | ok ts =>
      simp only [except_bind_ok]
      cases e2 : optField fields "location" decodePlace with
      | error err => simp [except_bind_error]
      | ok loc =>
          simp only [except_bind_ok]
          rw [hst]
          simp [except_bind_error]

/-- An input whose trimmed form is none of the five status strings fails
`StatusCode::try_from`. -/
theorem statusCode_tryFrom_error {s : String}
    (h : strTrim s ∉ (["pre-transit", "transit", "delivered", "failure",
      "unknown"] : List String)) :
    StatusCode.tryFrom s = .error "Not a valid status code" := by
  simp only [List.mem_cons, List.mem_singleton, not_or] at h
  obtain ⟨h1, h2, h3, h4, h5, -⟩ := h
  unfold StatusCode.tryFrom
  rw [if_neg h1, if_neg h2, if_neg h3, if_neg h4, if_neg h5]

/-- Claim C5: when deserializing a `ShipmentEvent`, an absent `statusCode`
field yields `status_code = None` without error, while a present `statusCode`
whose trimmed string value is not one of the five recognized codes makes the
whole deserialization fail. -/
theorem shipmentEvent_statusCode_spec (fields : List (String × Json)) :
    (getField fields "statusCode" = none →
      statusCodeField fields = .ok none ∧
      ∀ ev : ShipmentEvent, decodeShipmentEvent (.obj fields) = .ok ev →
        ev.status_code = none) ∧
    (∀ s : String, getField fields "statusCode" = some (.str s) →
      strTrim s ∉ (["pre-transit", "transit", "delivered", "failure",
        "unknown"] : List String) →
      statusCodeField fields = .error "Could not parse status code" ∧
      ∀ ev : ShipmentEvent, decodeShipmentEvent (.obj fields) ≠ .ok ev) := by
  constructor
  · intro hget
    have hst : statusCodeField fields = .ok none := by
      unfold statusCodeField
      rw [hget]
    refine ⟨hst, fun ev hok => ?_⟩
    have h2 := decodeShipmentEvent_ok hok
    rw [hst] at h2
    injection h2 with h3
    exact h3.symm
  · intro s hget hmem
    have hst : statusCodeField fields = .error "Could not parse status code" := by
      unfold statusCodeField
      rw [hget]
      show deserialize_status_code (.str s) = _
      unfold deserialize_status_code
      show (Except.ok s >>= fun str => _) = _
      rw [except_bind_ok, statusCode_tryFrom_error hmem]
    exact ⟨hst, fun ev => decodeShipmentEvent_status_error hst ev⟩

/-- Witness for C5: an event object without `statusCode` decodes with
`status_code = none` and no error; the same object with `statusCode: "bogus"`
fails to decode. -/
theorem shipmentEvent_statusCode_spec_witness :
    decodeShipmentEvent (.obj [("timestamp", .str "2021-06-15T10:30:00")]) =
      .ok ⟨⟨2021, 6, 15, 10, 30, 0⟩, none, none, none, none, none⟩ ∧
    decodeShipmentEvent (.obj [("timestamp", .str "2021-06-15T10:30:00"),
        ("statusCode", .str "bogus")]) ≠
      .ok ⟨⟨2021, 6, 15, 10, 30, 0⟩, none, some .Unknown, none, none, none⟩ :=
  ⟨rfl,
   ((shipmentEvent_statusCode_spec [("timestamp", .str "2021-06-15T10:30:00"),
      ("statusCode", .str "bogus")]).2 "bogus" rfl (by decide)).2 _⟩

/-- Claim C9: a `statusCode` field that is present with the JSON value `null`
fails deserialization: the field decoder first demands a string, which `null`
is not; only complete absence of the field is treated as `None`. -/
theorem statusCode_null_fails (fields : List (String × Json))
    (hget : getField fields "statusCode" = some .null) :
    deserialize_status_code .null = .error "invalid type: expected a string" ∧
    statusCodeField fields = .error "invalid type: expected a string" ∧
    ∀ ev : ShipmentEvent, decodeShipmentEvent (.obj fields) ≠ .ok ev := by
  have h0 : deserialize_status_code .null =
      .error "invalid type: expected a string" := rfl
  have hst : statusCodeField fields = .error "invalid type: expected a string" := by
    unfold statusCodeField
    rw [hget]
    rfl
  exact ⟨h0, hst, fun ev => decodeShipmentEvent_status_error hst ev⟩

/-- Witness for C9: an event object with `statusCode: null` fails to decode
even though its other fields are fine. -/
theorem statusCode_null_fails_witness :
    decodeShipmentEvent (.obj [("timestamp", .str "2021-06-15T10:30:00"),
        ("statusCode", .null)]) ≠
      .ok ⟨⟨2021, 6, 15, 10, 30, 0⟩, none, none, none, none, none⟩ :=
  (statusCode_null_fails [("timestamp", .str "2021-06-15T10:30:00"),
    ("statusCode", .null)] rfl).2.2 _


/-- A decoded `ShipmentDetails` carries exactly the value produced by the
`totalNumberOfPieces` field decoder. -/
theorem decodeShipmentDetails_ok {fields : List (String × Json)} {det : ShipmentDetails}
    (h : decodeShipmentDetails (.obj fields) = .ok det) :
    reqField fields "totalNumberOfPieces" decodeU32 = .ok det.total_number_of_pieces := by
  simp only [decodeShipmentDetails] at h
  cases e1 : optField fields "carrier" decodeOrganization with
  | error err => rw [e1] at h; simp [except_bind_error] at h
  | ok ca =>
      rw [e1] at h
      simp only [except_bind_ok] at h
      cases e2 : optField fields "product" decodeProduct with
      | error err => rw [e2] at h; simp [except_bind_error] at h
      | ok pr =>
          rw [e2] at h
          simp only [except_bind_ok] at h
          cases e3 : optField fields "receiver" decodePerson with
          | error err => rw [e3] at h; simp [except_bind_error] at h
          | ok rc =>
              rw [e3] at h
              simp only [except_bind_ok] at h
              cases e4 : optField fields "sender" decodePerson with
              | error err => rw [e4] at h; simp [except_bind_error] at h
              | ok sd =>
                  rw [e4] at h
                  simp only [except_bind_ok] at h
                  cases e5 : reqField fields "proofOfDelivery" decodeProofOfDelivery with
                  | error err => rw [e5] at h; simp [except_bind_error] at h
                  | ok pod =>
                      rw [e5] at h
                      simp only [except_bind_ok] at h
                      cases e6 : reqField fields "totalNumberOfPieces" decodeU32 with
                      | error err => rw [e6] at h; simp [except_bind_error] at h
                      | ok tot =>
                          rw [e6] at h
                          simp only [except_bind_ok] at h
                          cases e7 : reqField fields "pieceIds" decodeStringList with
                          | error err => rw [e7] at h; simp [except_bind_error] at h
                          | ok pids =>
                              rw [e7] at h
                              simp only [except_bind_ok] at h
                              injection h with h2
                              subst h2
                              rfl

/-- A failing `totalNumberOfPieces` field decoder makes the whole
`ShipmentDetails` deserialization fail. -/
theorem decodeShipmentDetails_pieces_error {fields : List (String × Json)} {e : String}
    (ht : reqField fields "totalNumberOfPieces" decodeU32 = .error e) :
    ∀ det : ShipmentDetails, decodeShipmentDetails (.obj fields) ≠ .ok det := by
  intro det
  simp only [decodeShipmentDetails]
  cases e1 : optField fields "carrier" decodeOrganization with
  | error err => simp [except_bind_error]
  | ok ca =>
      simp only [except_bind_ok]
      cases e2 : optField fields "product" decodeProduct with
      | error err => simp [except_bind_error]
      | ok pr =>
          simp only [except_bind_ok]
          cases e3 : optField fields "receiver" decodePerson with
          | error err => simp [except_bind_error]
          | ok rc =>
              simp only [except_bind_ok]
              cases e4 : optField fields "sender" decodePerson with
              | error err => simp [except_bind_error]
              | ok sd =>
                  simp only [except_bind_ok]
                  cases e5 : reqField fields "proofOfDelivery" decodeProofOfDelivery with
                  | error err => simp [except_bind_error]
                  | ok pod =>
                      simp only [except_bind_ok]
                      rw [ht]
                      simp [except_bind_error]

/-- Evaluation of a required field whose name is present. -/
theorem reqField_eq {α : Type} (fields : List (String × Json)) (name : String)
    (dec : Json → Except String α) (v : Json)
    (hg : getField fields name = some v) : reqField fields name dec = dec v := by
  unfold reqField
  rw [hg]

/-- Evaluation of a required field whose name is absent. -/
theorem reqField_none {α : Type} (fields : List (String × Json)) (name : String)
    (dec : Json → Except String α)
    (hg : getField fields name = none) :
    reqField fields name dec = .error ("missing field " ++ name) := by
  unfold reqField
  rw [hg]

/-- Unfolding of the `u32` decoder on a number. -/
theorem decodeU32_num (n : Int) :
    decodeU32 (.num n) = (if 0 ≤ n ∧ n ≤ 4294967295
      then (Except.ok n.toNat : Except String Nat)
      else .error "invalid value: integer out of range for u32") := rfl

/-- Claim C10: the `totalNumberOfPieces` field of `ShipmentDetails` is decoded
as a 32-bit unsigned integer: exactly the integers from `0` to `2^32 - 1` are
accepted for that field, a negative number or an integer above `2^32 - 1`
fails the field decoder and with it the whole `ShipmentDetails`
deserialization, and every decoded value came from its own field decoder and
lies in range. -/
theorem totalNumberOfPieces_u32_spec (n : Int) (fields : List (String × Json)) :
    (decodeU32 (.num n) = .ok n.toNat ↔ 0 ≤ n ∧ n ≤ 4294967295) ∧
    (n < 0 ∨ 4294967295 < n →
      decodeU32 (.num n) = .error "invalid value: integer out of range for u32") ∧
    (getField fields "totalNumberOfPieces" = some (.num n) →
      (n < 0 ∨ 4294967295 < n) →
      ∀ det : ShipmentDetails, decodeShipmentDetails (.obj fields) ≠ .ok det) ∧
    (∀ det : ShipmentDetails, decodeShipmentDetails (.obj fields) = .ok det →
      reqField fields "totalNumberOfPieces" decodeU32 = .ok det.total_number_of_pieces ∧
      (det.total_number_of_pieces : Int) ≤ 4294967295) := by
  have hrange : ∀ hn : n < 0 ∨ 4294967295 < n,
      decodeU32 (.num n) = .error "invalid value: integer out of range for u32" := by
    intro hn
    rw [decodeU32_num, if_neg (show ¬(0 ≤ n ∧ n ≤ 4294967295) by omega)]
  refine ⟨?_, hrange, ?_, ?_⟩
  · rw [decodeU32_num]
    split_ifs with hc
    · simp [hc]
    · simp [hc]
  · intro hget hn det
    have ht : reqField fields "totalNumberOfPieces" decodeU32 =
        .error "invalid value: integer out of range for u32" := by
      rw [reqField_eq fields _ decodeU32 _ hget]
      exact hrange hn
    exact decodeShipmentDetails_pieces_error ht det
  · intro det hok
    refine ⟨decodeShipmentDetails_ok hok, ?_⟩
    have he := decodeShipmentDetails_ok hok
    cases hg : getField fields "totalNumberOfPieces" with
    | none =>
        rw [reqField_none fields _ decodeU32 hg] at he
        exact absurd he (by simp)
    | some v =>
        rw [reqField_eq fields _ decodeU32 v hg] at he
        cases v with
        | num m =>
            rw [decodeU32_num] at he
            by_cases hc : 0 ≤ m ∧ m ≤ 4294967295
            · rw [if_pos hc] at he
              injection he with he2
              omega
            · rw [if_neg hc] at he
              exact absurd he (by simp)
        | null => exact absurd he (by simp [decodeU32])
        | bool b => exact absurd he (by simp [decodeU32])
        | str s => exact absurd he (by simp [decodeU32])
        | arr xs => exact absurd he (by simp [decodeU32])
        | obj fs => exact absurd he (by simp [decodeU32])

/-- Witness for C10: `-1` and `2^32` are rejected, `7` is accepted, and a
details object whose piece count is `-1` fails to decode as a whole. -/
theorem totalNumberOfPieces_u32_spec_witness :
    decodeU32 (.num (-1)) = .error "invalid value: integer out of range for u32" ∧
    decodeU32 (.num 4294967296) = .error "invalid value: integer out of range for u32" ∧
    decodeU32 (.num 7) = .ok 7 ∧
    decodeShipmentDetails (.obj [("proofOfDelivery", .obj [("documentUrl", .str "u")]),
        ("totalNumberOfPieces", .num (-1)), ("pieceIds", .arr [])]) ≠
      .ok ⟨none, none, none, none, ⟨"u"⟩, 0, []⟩ :=
  ⟨(totalNumberOfPieces_u32_spec (-1) []).2.1 (Or.inl (by norm_num)),
   (totalNumberOfPieces_u32_spec 4294967296 []).2.1 (Or.inr (by norm_num)),
   (totalNumberOfPieces_u32_spec 7 []).1.mpr ⟨by norm_num, by norm_num⟩,
   ((totalNumberOfPieces_u32_spec (-1)
      [("proofOfDelivery", .obj [("documentUrl", .str "u")]),
       ("totalNumberOfPieces", .num (-1)), ("pieceIds", .arr [])]).2.2.1 rfl
     (Or.inl (by norm_num))) _⟩

end DHL
